import Mathlib

/-!
Shallow embedding of the synthetic VCF generator
(`src/synthetic_vcf_generator/virtual_vcf.py`, `vcf_reference.py`,
`vcf_generator.py`).

The program draws from two pseudorandom sources: a general-purpose seeded
stream (`random.Random(seed)`, used for pattern weighting, the extra-metrics
choice and position sampling) and a fast counter-based stream (the module
global `fastrand` PCG32 state, seeded from the same user seed, used for the
per-row allele indices, QUAL and rotation amount).  Both are deterministic
functions of the user seed; each is modelled as an abstract stream of raw
natural-number draws consumed one value per elementary draw, threaded by an
explicit offset.  Library draws (`choice`, `choices`, `sample`, `randint`)
are modelled by reducing one raw draw to the documented range of the call.
-/

namespace SyntheticVCF

/-- A pseudorandom stream: an infinite sequence of raw draws. -/
abbrev RStream := Nat → Nat

/-- Models `fastrand.pcg32randint(a, b)`: a pseudorandom integer in the
inclusive range `[a, b]`, produced from the raw draw of stream `f` at
offset `i`. -/
def pcg32randint (f : RStream) (i a b : Nat) : Nat := a + f i % (b - a + 1)

/-- Models Python list indexing `l[i]` for an index that may be negative
(Python counts negative indices from the end of the list).  Out-of-range
indices, which raise `IndexError` in Python, return `""`; every use below is
in range. -/
def pyListGet (l : List String) (i : Int) : String :=
  if 0 ≤ i then l.getD i.toNat "" else l.getD ((l.length : Int) + i).toNat ""

/-- The canonical allele alphabet `self.alleles = ["A", "C", "G", "T"]`
(virtual_vcf.py line 70). -/
def alleles : List String := ["A", "C", "G", "T"]

/-- One imported chromosome sequence: the bytes of a `reference_<id>.seq`
file, as characters. -/
abbrev RefSeq := List Char

/-- Models `ReferenceData.get_ref_at_pos` (vcf_reference.py lines 34-35): the
one-byte slice `mmap_obj[position : position + 1]` decoded to a string, which
is a single character, or `""` when `position` is past the end of the file. -/
def get_ref_at_pos (seq : RefSeq) (position : Nat) : String :=
  match seq.drop position with
  | [] => ""
  | c :: _ => String.singleton c

/-- Models `ReferenceData.ref_length` (vcf_reference.py lines 31-32): the size
of the memory-mapped sequence file. -/
def ref_length (seq : RefSeq) : Nat := seq.length

/-- The imported reference directory as consumed by the generator: the
manifest's chromosome-to-sequence-file mapping together with each sequence
file's contents, plus the optional manifest entry consulted by the
`##reference=` header line (virtual_vcf.py line 103). -/
structure ReferenceStore where
  sequences : List (String × RefSeq)
  source_reference_file : Option String

/-- Looks up the imported sequence of a chromosome, models
`self.reference_files[chromosome]` together with loading and opening that
file (virtual_vcf.py lines 194-203 and 286-291). -/
def refLookup (store : Option ReferenceStore) (c : String) : Option RefSeq :=
  match store with
  | none => none
  | some st => st.sequences.lookup c

/-- The three sample-ID styles of the `id_type` argument. -/
inductive IdType where
  | count
  | padded_count
  | uuid
  deriving DecidableEq, Repr

/-- The constructor arguments of `VirtualVCF.__init__` (virtual_vcf.py lines
16-27) that the generation pass depends on.  `samplePrefixStr` carries the
source's `sample_prefix` argument. -/
structure Config where
  num_rows : Nat
  num_samples : Nat
  chromosomes : List String
  samplePrefixStr : String
  id_type : IdType
  phased : Bool
  large_format : Bool
  reference : Option ReferenceStore

/-- Setup succeeds only when every requested chromosome exists in the
reference metadata (virtual_vcf.py lines 194-198). -/
def chromosomesKnown (cfg : Config) : Bool :=
  match cfg.reference with
  | none => true
  | some st => cfg.chromosomes.all (fun c => (st.sequences.lookup c).isSome)

/-- The constructor validation (virtual_vcf.py lines 45-52) plus setup
success. -/
def Config.valid (cfg : Config) : Prop :=
  1 ≤ cfg.num_rows ∧ 1 ≤ cfg.num_samples ∧ chromosomesKnown cfg = true

/-- Models `self.max_rotation = num_samples // 10 if num_samples >= 10 else
num_samples` (virtual_vcf.py line 56). -/
def Config.max_rotation (cfg : Config) : Nat :=
  if 10 ≤ cfg.num_samples then cfg.num_samples / 10 else cfg.num_samples

/-- Models `self.fmt` (virtual_vcf.py line 65). -/
def Config.fmt (cfg : Config) : String :=
  if cfg.large_format then "GT:AD:DP:GQ:PL" else "GT"

/-- Models `self.info` (virtual_vcf.py line 66). -/
def Config.infoStr (cfg : Config) : String :=
  "DP=10;AF=0.5;NS=" ++ toString cfg.num_samples

/-- The fixed `extra_data` table of large-format metrics suffixes
(virtual_vcf.py lines 226-231). -/
def extra_data : List String :=
  ["0,30:30:89:913,89,0", "0,10:10:49:413,33,0", "0,20:20:55:489,89,0",
    "0,40:00:66:726,85,0"]

/-- Models `random.Random.choice(seq)`: a uniformly drawn element, produced
here by reducing one raw draw modulo the length. -/
def pyChoice (l : List String) (n : Nat) : String := l.getD (n % l.length) ""

/-- Models `self.sample_values` before the large-format suffixes
(virtual_vcf.py lines 210 and 218). -/
def base_sample_values (phased : Bool) : List String :=
  if phased then ["0|0", "1|0", "0|1", "1|1"] else ["0/0", "0/1", "1/1"]

/-- Models `self.sample_value_weights` (virtual_vcf.py lines 211-216 and
219-223); `int(n / d)` on nonnegative values is floor division. -/
def sample_value_weights (phased : Bool) (s : Nat) : List Nat :=
  if phased then [s * 10, s / 500, s / 500, s / 300] else [s * 10, s / 250, s / 300]

/-- Models the large-format list comprehension (virtual_vcf.py lines 232-234):
append to every pattern one `choice` from `extra_data`, one draw per pattern
in list order. -/
def attachExtra (g : RStream) : Nat → List String → List String
  | _, [] => []
  | gi, sv :: rest => (sv ++ ":" ++ pyChoice extra_data (g gi)) :: attachExtra g (gi + 1) rest

/-- The pattern set the working sequence is drawn from: base patterns, plus
one metrics suffix per pattern in large format (virtual_vcf.py lines 209-234). -/
def sample_values_full (cfg : Config) (g : RStream) (gi : Nat) : List String :=
  if cfg.large_format then attachExtra g gi (base_sample_values cfg.phased)
  else base_sample_values cfg.phased

/-- Selection by cumulative weights: given a residual `r` smaller than the
total weight, pick the first value whose weight bracket contains `r`.
Zero-weight values are never selected, as in `random.Random.choices`. -/
def weightedPickAux : List (String × Nat) → Nat → String
  | [], _ => ""
  | (v, w) :: rest, r => if r < w then v else weightedPickAux rest (r - w)

/-- Models one weighted draw of `random.Random.choices(values, weights=w)`. -/
def weightedChoice (values : List String) (weights : List Nat) (n : Nat) : String :=
  if weights.sum = 0 then "" else weightedPickAux (values.zip weights) (n % weights.sum)

/-- Models `random.Random.choices(values, weights=w, k=k)`: `k` weighted draws
with replacement, one raw draw each. -/
def weightedChoices (values : List String) (weights : List Nat) (g : RStream) :
    Nat → Nat → List String
  | _, 0 => []
  | gi, Nat.succ k =>
    weightedChoice values weights (g gi) :: weightedChoices values weights g (gi + 1) k

/-- Models Python `str.replace(old, new, 1)` on character lists: replace the
first occurrence of `pat` by `sub`. -/
def replaceFirstAux (pat sub : List Char) : List Char → List Char
  | [] => []
  | c :: rest =>
    if pat.isPrefixOf (c :: rest) then sub ++ (c :: rest).drop pat.length
    else c :: replaceFirstAux pat sub rest

/-- Models Python `s.replace(pat, sub, 1)`. -/
def str_replace_first (s pat sub : String) : String :=
  String.mk (replaceFirstAux pat.data sub.data s.data)

/-- Models Python `s.startswith(p)`. -/
def pyStartsWith (s p : String) : Bool := p.data.isPrefixOf s.data

/-- The genotype core pattern of one sample-column literal: the part before
the first `:` separator (the whole string when there is none). -/
def corePattern (s : String) : String :=
  String.mk (s.data.takeWhile (fun c => c != ':'))

/-- The initial draw of the working sequence: `self.random.choices(values,
weights=..., k=num_samples)` (virtual_vcf.py lines 236-242), after the
large-format suffix draws consumed one general-purpose draw per pattern. -/
def drawnSamples (cfg : Config) (g : RStream) (gi : Nat) : List String :=
  weightedChoices (sample_values_full cfg g gi)
    (sample_value_weights cfg.phased cfg.num_samples) g
    (if cfg.large_format then gi + (base_sample_values cfg.phased).length else gi)
    cfg.num_samples

/-- Models `VirtualVCF._generate_samples` (virtual_vcf.py lines 205-264):
build the weighted pattern set, draw the working sequence of `num_samples`
values with replacement, then, if every drawn value starts with the
homozygous-reference value, mutate the first element (`.replace("0", "1", 1)`
when phased, `.replace("0/0", "0/1", 1)` otherwise).  Returns the working
sequence and the next offset of the general-purpose stream. -/
def generate_samples (cfg : Config) (g : RStream) (gi : Nat) : List String × Nat :=
  let gi1 := if cfg.large_format then gi + (base_sample_values cfg.phased).length else gi
  let drawn := drawnSamples cfg g gi
  let v0 := (sample_values_full cfg g gi).getD 0 ""
  let avail :=
    if drawn.all (fun s => pyStartsWith s v0) then
      match drawn with
      | [] => []
      | s :: rest =>
        (if cfg.phased then str_replace_first s "0" "1"
          else str_replace_first s "0/0" "0/1") :: rest
    else drawn
  (avail, gi1 + cfg.num_samples)

/-- Models Python `collections.deque.rotate(r)` for `r ≥ 0` on a list: a
rotation of the ring buffer to the right by `r` steps (`List.rotate` is a
left rotation, so a right rotation by `r` is a left rotation by the
complement of `r` modulo the length). -/
def deque_rotate (l : List String) (r : Nat) : List String :=
  if l.length = 0 then l else l.rotate (l.length - r % l.length)

/-- Models `VirtualVCF._get_ref_alt_at_position` (virtual_vcf.py lines
144-159).  Returns `(ref, alt)` and the next fast-stream offset. -/
def get_ref_alt_at_position (refSeq : Option RefSeq) (position : Nat)
    (f : RStream) (fi : Nat) : (String × String) × Nat :=
  let ref_index := pcg32randint f fi 0 3
  let allele_index := pcg32randint f (fi + 1) 1 3
  let ref :=
    match refSeq with
    | some seq => get_ref_at_pos seq (position - 1)
    | none => alleles.getD ref_index ""
  let alt :=
    if alleles.contains ref then
      pyListGet alleles ((alleles.indexOf ref : Int) - allele_index)
    else pyListGet alleles ((ref_index : Int) - allele_index)
  ((ref, alt), fi + 2)

/-- RowRecord (spec section 3): the fields of one emitted variant row, its
serialized line, and the sample-column values it carries. -/
structure RowRecord where
  chromosome : String
  pos : Nat
  ref : String
  alt : String
  qual : Nat
  line : String
  samples : List String
  deriving DecidableEq, Repr

instance : Inhabited RowRecord := ⟨⟨"", 0, "", "", 0, "", []⟩⟩

/-- Models `VirtualVCF._generate_vcf_row` (virtual_vcf.py lines 161-182): draw
REF/ALT and QUAL, rotate the working sequence in place, and serialize the
tab-joined row.  Returns the row, the new working sequence, and the next
fast-stream offset. -/
def generate_vcf_row (cfg : Config) (chromosome : String) (position : Nat)
    (refSeq : Option RefSeq) (f : RStream) (fi : Nat) (avail : List String) :
    RowRecord × List String × Nat :=
  let ra := get_ref_alt_at_position refSeq position f fi
  let qual := pcg32randint f ra.2 10 100
  let rot := pcg32randint f (ra.2 + 1) 1 cfg.max_rotation
  let avail1 := deque_rotate avail rot
  let samples := String.intercalate "\t" avail1
  let line := chromosome ++ "\t" ++ toString position ++ "\t.\t" ++ ra.1.1 ++ "\t" ++
    ra.1.2 ++ "\t" ++ toString qual ++ "\tPASS\t" ++ Config.infoStr cfg ++ "\t" ++
    Config.fmt cfg ++ "\t" ++ samples ++ "\n"
  (⟨chromosome, position, ra.1.1, ra.1.2, qual, line, avail1⟩, avail1, ra.2 + 2)

/-- Models `random.Random.sample(population, k)`: `k` distinct selections
without replacement, one raw draw per selection choosing an index into the
remaining pool. -/
def sampleWithoutReplacement (g : RStream) : Nat → Nat → List Nat → List Nat × Nat
  | gi, 0, _ => ([], gi)
  | gi, Nat.succ k, pool =>
    if pool.length = 0 then ([], gi)
    else
      let idx := g gi % pool.length
      let res := sampleWithoutReplacement g (gi + 1) k (pool.eraseIdx idx)
      (pool.getD idx 0 :: res.1, res.2)

/-- Models position generation in `VirtualVCF.__iter__` (virtual_vcf.py lines
293-295): `self.random.sample(range(1, chromosome_length), self.num_rows)`
followed by `positions.sort()`. -/
def chromosomePositions (cfg : Config) (g : RStream) (gi : Nat) (len : Nat) :
    List Nat × Nat :=
  let res := sampleWithoutReplacement g gi cfg.num_rows (List.range' 1 (len - 1))
  (List.insertionSort (· ≤ ·) res.1, res.2)

/-- Models `VirtualVCF._get_chromosome_length` (virtual_vcf.py lines 76-84):
the reference sequence length when a reference directory is configured, else
the synthetic fallback `num_rows * 100`. -/
def get_chromosome_length (cfg : Config) (c : String) : Nat :=
  match refLookup cfg.reference c with
  | some seq => ref_length seq
  | none => cfg.num_rows * 100

/-- Row emission for one chromosome's sorted position list (virtual_vcf.py
lines 296-298), threading the working sequence and the fast stream. -/
def rowsForPositions (cfg : Config) (chromosome : String) (refSeq : Option RefSeq)
    (f : RStream) : List Nat → Nat → List String → List RowRecord × List String × Nat
  | [], fi, avail => ([], avail, fi)
  | p :: ps, fi, avail =>
    let step := generate_vcf_row cfg chromosome p refSeq f fi avail
    let rest := rowsForPositions cfg chromosome refSeq f ps step.2.2 step.2.1
    (step.1 :: rest.1, rest.2.1, rest.2.2)

/-- The state produced by the per-chromosome loop of one pass. -/
structure PassOut where
  rows : List RowRecord
  avail : List String
  gi : Nat
  fi : Nat

/-- The per-chromosome loop of `VirtualVCF.__iter__` (virtual_vcf.py lines
285-300): per chromosome, resolve the reference sequence and length, draw and
sort positions from the general-purpose stream, then emit one row per
position. -/
def chromosomeLoop (cfg : Config) (g f : RStream) :
    List String → Nat → Nat → List String → PassOut
  | [], gi, fi, avail => ⟨[], avail, gi, fi⟩
  | c :: cs, gi, fi, avail =>
    let ps := chromosomePositions cfg g gi (get_chromosome_length cfg c)
    let rcs := rowsForPositions cfg c (refLookup cfg.reference c) f ps.1 fi avail
    let rest := chromosomeLoop cfg g f cs ps.2 rcs.2.2 rcs.2.1
    ⟨rcs.1 ++ rest.rows, rest.avail, rest.gi, rest.fi⟩

/-- Modelled from the spec: the package version string interpolated into the
`##source=` header line.  Its value lives in the package `__init__`, which is
not among the given sources, and no property below depends on it. -/
def generator_version : String := "0.0.0"

/-- Models the f-string `f"{i:07d}"` (virtual_vcf.py line 134): the decimal
digits of `i`, zero-padded on the left to a minimum width of 7. -/
def pad7 (n : Nat) : String :=
  let s := toString n
  String.mk (List.replicate (7 - s.length) '0') ++ s

/-- One generated sample name (virtual_vcf.py lines 130-137).  The `uuid`
style calls `uuid.uuid4()`, which draws from ambient process entropy and not
from either seeded stream; it is modelled by the abstract token stream `u`. -/
def sample_name (cfg : Config) (u : Nat → String) (i : Nat) : String :=
  match cfg.id_type with
  | IdType.count => cfg.samplePrefixStr ++ toString i
  | IdType.padded_count => cfg.samplePrefixStr ++ pad7 i
  | IdType.uuid => cfg.samplePrefixStr ++ u i

/-- Models `VirtualVCF._generate_vcf_header` (virtual_vcf.py lines 86-142). -/
def generate_vcf_header (cfg : Config) (u : Nat → String) : String :=
  let contigs := String.intercalate "\n" (cfg.chromosomes.map (fun c =>
    "##contig=<ID=" ++ c ++ ",length=" ++ toString (get_chromosome_length cfg c) ++ ">"))
  let srcFile :=
    match cfg.reference with
    | some st => st.source_reference_file.getD "sample.fa"
    | none => "sample.fa"
  let header_lines := [
    "##fileformat=VCFv4.2",
    "##source=VirtualVCF " ++ generator_version,
    "##FILTER=<ID=PASS,Description=\"All filters passed\">",
    "##INFO=<ID=NS,Number=1,Type=Integer,Description=\"Number of Samples With Data\">",
    contigs,
    "##reference=ftp://ftp.example.com/" ++ srcFile,
    "##INFO=<ID=AF,Number=A,Type=Float,Description=\"Estimated allele frequency in the range (0,1)\">",
    "##INFO=<ID=DP,Number=1,Type=Integer,Description=\"Approximate read depth; some reads may have been filtered\">",
    "##FORMAT=<ID=GT,Number=1,Type=String,Description=\"Genotype\">"]
  let header_lines := header_lines ++
    (if cfg.large_format then [
      "##FORMAT=<ID=AD,Number=R,Type=Integer,Description=\"Allelic depths for the ref and alt alleles in the order listed\">",
      "##FORMAT=<ID=DP,Number=1,Type=Integer,Description=\"Approximate read depth (reads with MQ=255 or with bad mates are filtered)\">",
      "##FORMAT=<ID=GQ,Number=1,Type=Integer,Description=\"Genotype Quality\">",
      "##FORMAT=<ID=PL,Number=G,Type=Integer,Description=\"Phred-scaled genotype Likelihoods\">"]
    else [])
  let columns := ["#CHROM", "POS", "ID", "REF", "ALT", "QUAL", "FILTER", "INFO", "FORMAT"] ++
    (List.range' 1 cfg.num_samples).map (sample_name cfg u)
  String.intercalate "\n" (header_lines ++ [String.intercalate "\t" columns]) ++ "\n"

/-- One full generation pass over all chromosomes, starting the fast stream at
offset `fi0`: the constructor's sampler setup (`_generate_samples`) followed
by the per-chromosome loop. -/
def vcfPassFrom (cfg : Config) (g f : RStream) (fi0 : Nat) : PassOut :=
  let init := generate_samples cfg g 0
  chromosomeLoop cfg g f cfg.chromosomes init.2 fi0 init.1

/-- The working sequence as it stands when iteration begins. -/
def initialSamples (cfg : Config) (g : RStream) : List String :=
  (generate_samples cfg g 0).1

/-- All rows of one pass, starting at fast-stream offset `fi0`. -/
def vcfRowsFrom (cfg : Config) (g f : RStream) (fi0 : Nat) : List RowRecord :=
  (vcfPassFrom cfg g f fi0).rows

/-- All rows of a single-run pass. -/
def vcfRows (cfg : Config) (g f : RStream) : List RowRecord :=
  vcfRowsFrom cfg g f 0

/-- The text chunks yielded by one pass of `VirtualVCF.__iter__`: the header
string, then one line per variant row. -/
def vcfChunksFrom (cfg : Config) (g f : RStream) (u : Nat → String) (fi0 : Nat) :
    List String :=
  generate_vcf_header cfg u :: (vcfRowsFrom cfg g f fi0).map RowRecord.line

/-- The byte content of one produced file: every yielded chunk, concatenated
in order (vcf_generator.py lines 24-27). -/
def vcfFileContentFrom (cfg : Config) (g f : RStream) (u : Nat → String) (fi0 : Nat) :
    String :=
  String.join (vcfChunksFrom cfg g f u fi0)

/-- The byte content of a single-file run. -/
def vcfFileContent (cfg : Config) (g f : RStream) (u : Nat → String) : String :=
  vcfFileContentFrom cfg g f u 0

/-- Reference-handle acquisition and release events. -/
inductive RefEvent where
  | openEvt (c : String)
  | closeEvt (c : String)
  deriving DecidableEq, BEq, Repr

/-- The reference-handle events of one full pass, in program order: the header
emission calls `_get_chromosome_length(c)` once per contig line, which opens
the chromosome's reference and never closes it (virtual_vcf.py lines 76-84
and 91-96); the row phase then opens each chromosome's reference, emits its
rows, and closes it (virtual_vcf.py lines 285-300).  No event is produced
when no reference directory is configured. -/
def passEvents (cfg : Config) : List RefEvent :=
  (if (cfg.reference).isSome then cfg.chromosomes.map RefEvent.openEvt else []) ++
    cfg.chromosomes.flatMap (fun c =>
      if (cfg.reference).isSome then [RefEvent.openEvt c, RefEvent.closeEvt c] else [])

/-- How many times the pass opened chromosome `c`'s reference handle. -/
def countOpens (evts : List RefEvent) (c : String) : Nat :=
  (evts.filter (fun e => e == RefEvent.openEvt c)).length

/-- How many times the pass closed chromosome `c`'s reference handle. -/
def countCloses (evts : List RefEvent) (c : String) : Nat :=
  (evts.filter (fun e => e == RefEvent.closeEvt c)).length

/-- Fast-stream draws consumed by one full pass: four per row (REF index, ALT
offset, QUAL, rotation amount) for `num_rows` rows in each chromosome. -/
def fastDrawsPerPass (cfg : Config) : Nat :=
  4 * cfg.num_rows * cfg.chromosomes.length

/-- How many earlier batch tasks the pool assigned to the same worker process
as task `t` (tasks are dispatched in submission order, vcf_generator.py lines
184-189). -/
def tasksBefore (assign : Nat → Nat) (t : Nat) : Nat :=
  ((List.range t).filter (fun s => assign s == assign t)).length

/-- Models one task of `batch_synthetic_vcf_data` (vcf_generator.py lines
170-189): every task deserializes the same pre-generation copy of the
generator (so the general-purpose stream and the working sequence restart
from the construction state), but the fast stream's state is a per-process
module global, inherited once when the worker was forked and advanced by one
whole pass for every earlier task run on the same worker. -/
def batchTaskContent (cfg : Config) (g f : RStream) (u : Nat → String)
    (assign : Nat → Nat) (t : Nat) : String :=
  vcfFileContentFrom cfg g f u (tasksBefore assign t * fastDrawsPerPass cfg)

/-! Concrete instances used to evaluate the model on specific inputs. -/

/-- A concrete raw-draw stream that always yields 0. -/
def zeroStream : RStream := fun _ => 0

/-- A concrete raw-draw stream that yields its offset. -/
def idStream : RStream := fun i => i

/-- A concrete uuid token stream. -/
def emptyUuid : Nat → String := fun _ => ""

/-- A concrete uuid token stream, as one run's ambient entropy could yield. -/
def uuidA : Nat → String := fun _ => "aaaaaaaa-aaaa-aaaa-aaaa-aaaaaaaaaaaa"

/-- Another concrete uuid token stream, as an independent second run's ambient
entropy could yield. -/
def uuidB : Nat → String := fun _ => "bbbbbbbb-bbbb-bbbb-bbbb-bbbbbbbbbbbb"

/-- A worker assignment that puts every batch task on the same worker. -/
def assignSame : Nat → Nat := fun _ => 0

/-- A small reference-free configuration: 1 row, 2 phased samples. -/
def cfgPlain : Config := ⟨1, 2, ["chr1"], "sample_", IdType.count, true, false, none⟩

/-- The single row `cfgPlain` produces under `zeroStream` draws. -/
def rowPlain : RowRecord := (vcfRows cfgPlain zeroStream zeroStream).getD 0 default

/-- A reference store whose chr1 sequence holds the ambiguity code `N`. -/
def storeN : ReferenceStore := ⟨[("chr1", ['N', 'N', 'N', 'N'])], none⟩

/-- A configuration bound to the all-`N` reference store. -/
def cfgRefN : Config := ⟨1, 1, ["chr1"], "sample_", IdType.padded_count, true, false, some storeN⟩

/-- A small unphased configuration. -/
def cfgUnphased : Config := ⟨1, 2, ["chr1"], "sample_", IdType.padded_count, false, false, none⟩

/-- The single row `cfgUnphased` produces under `zeroStream` draws. -/
def rowUnphased : RowRecord := (vcfRows cfgUnphased zeroStream zeroStream).getD 0 default

/-- A phased configuration with 10 samples, so `max_rotation = 1`. -/
def cfgTen : Config := ⟨1, 10, ["chr1"], "sample_", IdType.padded_count, true, false, none⟩

/-- A configuration using the `uuid` sample-ID style. -/
def cfgUuid : Config := ⟨1, 1, ["chr1"], "sample_", IdType.uuid, true, false, none⟩

/-- A reference store with a canonical 8-base chr1 sequence. -/
def storeACGT : ReferenceStore := ⟨[("chr1", ['A', 'C', 'G', 'T', 'A', 'C', 'G', 'T'])], none⟩

/-- A reference-bound configuration over `storeACGT`. -/
def cfgRefACGT : Config := ⟨1, 1, ["chr1"], "sample_", IdType.padded_count, true, false, some storeACGT⟩

/-! Helper lemmas about the pseudorandom draw primitives. -/

theorem pcg32randint_ge (f : RStream) (i a b : Nat) : a ≤ pcg32randint f i a b :=
  Nat.le_add_right a _

theorem pcg32randint_le (f : RStream) (i a b : Nat) (h : a ≤ b) :
    pcg32randint f i a b ≤ b := by
  have hlt : f i % (b - a + 1) < b - a + 1 := Nat.mod_lt _ (by omega)
  unfold pcg32randint
  omega

theorem contains_alleles_iff (s : String) :
    alleles.contains s = true ↔ s = "A" ∨ s = "C" ∨ s = "G" ∨ s = "T" := by
  simp [alleles, List.contains]

/-- Python negative indexing on the allele alphabet coincides with modulo-4
indexing, and never returns the allele at the undiminished index. -/
theorem alt_formula (i k : Nat) (hi : i < 4) (hk1 : 1 ≤ k) (hk3 : k ≤ 3) :
    pyListGet alleles ((i : Int) - k) = alleles.getD ((i + 4 - k) % 4) "" ∧
    alleles.contains (pyListGet alleles ((i : Int) - k)) = true ∧
    pyListGet alleles ((i : Int) - k) ≠ alleles.getD i "" := by
  interval_cases i <;> interval_cases k <;> decide

theorem alt_of_canonical (s : String) (k : Nat) (hs : alleles.contains s = true)
    (hk1 : 1 ≤ k) (hk3 : k ≤ 3) :
    pyListGet alleles ((alleles.indexOf s : Int) - k) =
      alleles.getD ((alleles.indexOf s + 4 - k) % 4) "" ∧
    alleles.contains (pyListGet alleles ((alleles.indexOf s : Int) - k)) = true ∧
    pyListGet alleles ((alleles.indexOf s : Int) - k) ≠ s := by
  rcases (contains_alleles_iff s).1 hs with h | h | h | h <;> subst h <;>
    interval_cases k <;> decide

theorem getD_alleles_mem (i : Nat) (hi : i < 4) :
    alleles.contains (alleles.getD i "") = true := by
  interval_cases i <;> decide

theorem get_ref_alt_snd (refSeq : Option RefSeq) (p : Nat) (f : RStream) (fi : Nat) :
    (get_ref_alt_at_position refSeq p f fi).2 = fi + 2 := rfl

theorem get_ref_alt_ref_none (p : Nat) (f : RStream) (fi : Nat) :
    (get_ref_alt_at_position none p f fi).1.1 = alleles.getD (pcg32randint f fi 0 3) "" := rfl

theorem get_ref_alt_ref_some (seq : RefSeq) (p : Nat) (f : RStream) (fi : Nat) :
    (get_ref_alt_at_position (some seq) p f fi).1.1 = get_ref_at_pos seq (p - 1) := rfl

theorem get_ref_alt_alt_eq (refSeq : Option RefSeq) (p : Nat) (f : RStream) (fi : Nat) :
    (get_ref_alt_at_position refSeq p f fi).1.2 =
      if alleles.contains (get_ref_alt_at_position refSeq p f fi).1.1 then
        pyListGet alleles
          ((alleles.indexOf (get_ref_alt_at_position refSeq p f fi).1.1 : Int) -
            pcg32randint f (fi + 1) 1 3)
      else
        pyListGet alleles ((pcg32randint f fi 0 3 : Int) - pcg32randint f (fi + 1) 1 3) := by
  cases refSeq <;> rfl

/-- ALT is always drawn from the canonical alphabet. -/
theorem get_ref_alt_alt_mem (refSeq : Option RefSeq) (p : Nat) (f : RStream) (fi : Nat) :
    alleles.contains (get_ref_alt_at_position refSeq p f fi).1.2 = true := by
  have hi : pcg32randint f fi 0 3 < 4 := by
    have := pcg32randint_le f fi 0 3 (by omega)
    omega
  have hk1 : 1 ≤ pcg32randint f (fi + 1) 1 3 := pcg32randint_ge f (fi + 1) 1 3
  have hk3 : pcg32randint f (fi + 1) 1 3 ≤ 3 := pcg32randint_le f (fi + 1) 1 3 (by omega)
  rw [get_ref_alt_alt_eq]
  by_cases hmem : alleles.contains (get_ref_alt_at_position refSeq p f fi).1.1 = true
  · rw [if_pos hmem]
    exact (alt_of_canonical _ _ hmem hk1 hk3).2.1
  · rw [if_neg (by simpa using hmem)]
    exact (alt_formula _ _ hi hk1 hk3).2.1

/-- REF never equals ALT. -/
theorem get_ref_alt_ne (refSeq : Option RefSeq) (p : Nat) (f : RStream) (fi : Nat) :
    (get_ref_alt_at_position refSeq p f fi).1.1 ≠
      (get_ref_alt_at_position refSeq p f fi).1.2 := by
  have hi : pcg32randint f fi 0 3 < 4 := by
    have := pcg32randint_le f fi 0 3 (by omega)
    omega
  have hk1 : 1 ≤ pcg32randint f (fi + 1) 1 3 := pcg32randint_ge f (fi + 1) 1 3
  have hk3 : pcg32randint f (fi + 1) 1 3 ≤ 3 := pcg32randint_le f (fi + 1) 1 3 (by omega)
  rw [get_ref_alt_alt_eq]
  by_cases hmem : alleles.contains (get_ref_alt_at_position refSeq p f fi).1.1 = true
  · rw [if_pos hmem]
    exact fun h => (alt_of_canonical _ _ hmem hk1 hk3).2.2 h.symm
  · rw [if_neg (by simpa using hmem)]
    intro h
    exact hmem (h ▸ (alt_formula _ _ hi hk1 hk3).2.1)

/-- The modulo-4 wrap formula for ALT when REF is canonical. -/
theorem get_ref_alt_alt_canonical (refSeq : Option RefSeq) (p : Nat) (f : RStream)
    (fi : Nat) (hmem : alleles.contains (get_ref_alt_at_position refSeq p f fi).1.1 = true) :
    (get_ref_alt_at_position refSeq p f fi).1.2 =
      alleles.getD ((alleles.indexOf (get_ref_alt_at_position refSeq p f fi).1.1 +
        4 - pcg32randint f (fi + 1) 1 3) % 4) "" := by
  have hk1 : 1 ≤ pcg32randint f (fi + 1) 1 3 := pcg32randint_ge f (fi + 1) 1 3
  have hk3 : pcg32randint f (fi + 1) 1 3 ≤ 3 := pcg32randint_le f (fi + 1) 1 3 (by omega)
  rw [get_ref_alt_alt_eq, if_pos hmem]
  exact (alt_of_canonical _ _ hmem hk1 hk3).1

/-- The modulo-4 wrap formula for ALT when REF is not canonical: the spare
REF-index draw is used instead. -/
theorem get_ref_alt_alt_noncanonical (refSeq : Option RefSeq) (p : Nat) (f : RStream)
    (fi : Nat) (hmem : alleles.contains (get_ref_alt_at_position refSeq p f fi).1.1 = false) :
    (get_ref_alt_at_position refSeq p f fi).1.2 =
      alleles.getD ((pcg32randint f fi 0 3 + 4 - pcg32randint f (fi + 1) 1 3) % 4) "" := by
  have hi : pcg32randint f fi 0 3 < 4 := by
    have := pcg32randint_le f fi 0 3 (by omega)
    omega
  have hk1 : 1 ≤ pcg32randint f (fi + 1) 1 3 := pcg32randint_ge f (fi + 1) 1 3
  have hk3 : pcg32randint f (fi + 1) 1 3 ≤ 3 := pcg32randint_le f (fi + 1) 1 3 (by omega)
  rw [get_ref_alt_alt_eq, if_neg (fun h => by rw [hmem] at h; cases h)]
  exact (alt_formula _ _ hi hk1 hk3).1

/-! Projections of one generated row. -/

theorem row_chromosome (cfg : Config) (c : String) (p : Nat) (refSeq : Option RefSeq)
    (f : RStream) (fi : Nat) (avail : List String) :
    (generate_vcf_row cfg c p refSeq f fi avail).1.chromosome = c := rfl

theorem row_pos (cfg : Config) (c : String) (p : Nat) (refSeq : Option RefSeq)
    (f : RStream) (fi : Nat) (avail : List String) :
    (generate_vcf_row cfg c p refSeq f fi avail).1.pos = p := rfl

theorem row_ref (cfg : Config) (c : String) (p : Nat) (refSeq : Option RefSeq)
    (f : RStream) (fi : Nat) (avail : List String) :
    (generate_vcf_row cfg c p refSeq f fi avail).1.ref =
      (get_ref_alt_at_position refSeq p f fi).1.1 := rfl

theorem row_alt (cfg : Config) (c : String) (p : Nat) (refSeq : Option RefSeq)
    (f : RStream) (fi : Nat) (avail : List String) :
    (generate_vcf_row cfg c p refSeq f fi avail).1.alt =
      (get_ref_alt_at_position refSeq p f fi).1.2 := rfl

theorem row_samples (cfg : Config) (c : String) (p : Nat) (refSeq : Option RefSeq)
    (f : RStream) (fi : Nat) (avail : List String) :
    (generate_vcf_row cfg c p refSeq f fi avail).1.samples =
      deque_rotate avail (pcg32randint f (fi + 3) 1 cfg.max_rotation) := rfl

theorem row_snd_samples (cfg : Config) (c : String) (p : Nat) (refSeq : Option RefSeq)
    (f : RStream) (fi : Nat) (avail : List String) :
    (generate_vcf_row cfg c p refSeq f fi avail).2.1 =
      (generate_vcf_row cfg c p refSeq f fi avail).1.samples := rfl

theorem row_snd_fi (cfg : Config) (c : String) (p : Nat) (refSeq : Option RefSeq)
    (f : RStream) (fi : Nat) (avail : List String) :
    (generate_vcf_row cfg c p refSeq f fi avail).2.2 = fi + 4 := rfl

theorem row_line (cfg : Config) (c : String) (p : Nat) (refSeq : Option RefSeq)
    (f : RStream) (fi : Nat) (avail : List String) :
    (generate_vcf_row cfg c p refSeq f fi avail).1.line =
      c ++ "\t" ++ toString p ++ "\t.\t" ++
        (generate_vcf_row cfg c p refSeq f fi avail).1.ref ++ "\t" ++
        (generate_vcf_row cfg c p refSeq f fi avail).1.alt ++ "\t" ++
        toString (generate_vcf_row cfg c p refSeq f fi avail).1.qual ++ "\tPASS\t" ++
        Config.infoStr cfg ++ "\t" ++ Config.fmt cfg ++ "\t" ++
        String.intercalate "\t" (generate_vcf_row cfg c p refSeq f fi avail).1.samples ++
        "\n" := rfl

/-! Decomposition of pass membership. -/

theorem mem_rowsForPositions (cfg : Config) (c : String) (refSeq : Option RefSeq)
    (f : RStream) :
    ∀ (ps : List Nat) (fi : Nat) (avail : List String) (row : RowRecord),
      row ∈ (rowsForPositions cfg c refSeq f ps fi avail).1 →
      ∃ p fi2 avail2, p ∈ ps ∧ row = (generate_vcf_row cfg c p refSeq f fi2 avail2).1
  | [], fi, avail, row, h => absurd h (by simp [rowsForPositions])
  | p :: ps, fi, avail, row, h => by
    simp only [rowsForPositions, List.mem_cons] at h
    rcases h with h1 | h2
    · exact ⟨p, fi, avail, List.mem_cons_self p ps, h1⟩
    · obtain ⟨q, fi2, avail2, hq, hrow⟩ :=
        mem_rowsForPositions cfg c refSeq f ps _ _ row h2
      exact ⟨q, fi2, avail2, List.mem_cons_of_mem p hq, hrow⟩

theorem mem_chromosomeLoop (cfg : Config) (g f : RStream) :
    ∀ (cs : List String) (gi fi : Nat) (avail : List String) (row : RowRecord),
      row ∈ (chromosomeLoop cfg g f cs gi fi avail).rows →
      ∃ c, c ∈ cs ∧ ∃ ps fi2 avail2,
        row ∈ (rowsForPositions cfg c (refLookup cfg.reference c) f ps fi2 avail2).1
  | [], gi, fi, avail, row, h => absurd h (by simp [chromosomeLoop])
  | c :: cs, gi, fi, avail, row, h => by
    simp only [chromosomeLoop, List.mem_append] at h
    rcases h with h1 | h2
    · exact ⟨c, List.mem_cons_self c cs, _, _, _, h1⟩
    · obtain ⟨c2, hc2, ps, fi2, avail2, hrow⟩ :=
        mem_chromosomeLoop cfg g f cs _ _ _ row h2
      exact ⟨c2, List.mem_cons_of_mem c hc2, ps, fi2, avail2, hrow⟩

/-- Every row of a pass comes from one `generate_vcf_row` call for some
chromosome of the configuration. -/
theorem mem_vcfRowsFrom (cfg : Config) (g f : RStream) (fi0 : Nat) (row : RowRecord)
    (h : row ∈ vcfRowsFrom cfg g f fi0) :
    ∃ c, c ∈ cfg.chromosomes ∧ ∃ p fi2 avail2,
      row = (generate_vcf_row cfg c p (refLookup cfg.reference c) f fi2 avail2).1 := by
  obtain ⟨c, hc, ps, fi2, avail2, hrow⟩ := mem_chromosomeLoop cfg g f cfg.chromosomes _ _ _ row h
  obtain ⟨p, fi3, avail3, _, hrow2⟩ := mem_rowsForPositions cfg c _ f ps fi2 avail2 row hrow
  exact ⟨c, hc, p, fi3, avail3, hrow2⟩

/-! Permutation invariants of the working sequence. -/

theorem deque_rotate_perm (l : List String) (r : Nat) : (deque_rotate l r).Perm l := by
  unfold deque_rotate
  split
  · exact List.Perm.refl l
  · exact List.rotate_perm l _

theorem rowsForPositions_perm (cfg : Config) (c : String) (refSeq : Option RefSeq)
    (f : RStream) :
    ∀ (ps : List Nat) (fi : Nat) (avail : List String),
      (∀ row ∈ (rowsForPositions cfg c refSeq f ps fi avail).1, row.samples.Perm avail) ∧
      ((rowsForPositions cfg c refSeq f ps fi avail).2.1).Perm avail
  | [], fi, avail => by
    constructor
    · intro row h
      exact absurd h (by simp [rowsForPositions])
    · exact List.Perm.refl avail
  | p :: ps, fi, avail => by
    have hstep : ((generate_vcf_row cfg c p refSeq f fi avail).1.samples).Perm avail := by
      rw [row_samples]
      exact deque_rotate_perm avail _
    have hrec := rowsForPositions_perm cfg c refSeq f ps
      ((generate_vcf_row cfg c p refSeq f fi avail).2.2)
      ((generate_vcf_row cfg c p refSeq f fi avail).2.1)
    rw [row_snd_samples] at hrec
    constructor
    · intro row h
      simp only [rowsForPositions, List.mem_cons] at h
      rcases h with h1 | h2
      · rw [h1]
        exact hstep
      · exact (hrec.1 row h2).trans hstep
    · show ((rowsForPositions cfg c refSeq f (p :: ps) fi avail).2.1).Perm avail
      simp only [rowsForPositions]
      exact hrec.2.trans hstep

theorem chromosomeLoop_perm (cfg : Config) (g f : RStream) :
    ∀ (cs : List String) (gi fi : Nat) (avail : List String),
      (∀ row ∈ (chromosomeLoop cfg g f cs gi fi avail).rows, row.samples.Perm avail) ∧
      ((chromosomeLoop cfg g f cs gi fi avail).avail).Perm avail
  | [], gi, fi, avail => by
    constructor
    · intro row h
      exact absurd h (by simp [chromosomeLoop])
    · exact List.Perm.refl avail
  | c :: cs, gi, fi, avail => by
    have hrfp := rowsForPositions_perm cfg c (refLookup cfg.reference c) f
      (chromosomePositions cfg g gi (get_chromosome_length cfg c)).1 fi avail
    have hrec := chromosomeLoop_perm cfg g f cs
      (chromosomePositions cfg g gi (get_chromosome_length cfg c)).2
      ((rowsForPositions cfg c (refLookup cfg.reference c) f
        (chromosomePositions cfg g gi (get_chromosome_length cfg c)).1 fi avail).2.2)
      ((rowsForPositions cfg c (refLookup cfg.reference c) f
        (chromosomePositions cfg g gi (get_chromosome_length cfg c)).1 fi avail).2.1)
    constructor
    · intro row h
      simp only [chromosomeLoop, List.mem_append] at h
      rcases h with h1 | h2
      · exact hrfp.1 row h1
      · exact ((hrec.1 row h2).trans hrfp.2)
    · show ((chromosomeLoop cfg g f (c :: cs) gi fi avail).avail).Perm avail
      simp only [chromosomeLoop]
      exact hrec.2.trans hrfp.2

/-- Every row's sample columns are a permutation of the working sequence the
pass started with. -/
theorem vcfRows_samples_perm (cfg : Config) (g f : RStream) (fi0 : Nat) (row : RowRecord)
    (h : row ∈ vcfRowsFrom cfg g f fi0) :
    (row.samples).Perm (initialSamples cfg g) :=
  (chromosomeLoop_perm cfg g f cfg.chromosomes _ _ _).1 row h

/-- C1, counterexample to the claim as stated: with a reference store whose
chr1 sequence holds the ambiguity code `N`, the single emitted row's REF field
is the byte `"N"`, which is not in the canonical alphabet, so REF and ALT are
not both drawn from the canonical alphabet. -/
theorem C1_counterexample :
    (vcfRows cfgRefN zeroStream zeroStream).map RowRecord.ref = ["N"] ∧
    alleles.contains "N" = false := by decide

/-- C1 (amended): for every emitted row, ALT is a canonical allele and
REF ≠ ALT; REF is also canonical whenever no reference store is configured;
with a reference store active, REF is exactly the byte read from the
chromosome's sequence at offset `position - 1` (which need not be
canonical). -/
theorem C1_theorem (cfg : Config) (g f : RStream) (fi0 : Nat) (row : RowRecord)
    (h : row ∈ vcfRowsFrom cfg g f fi0) :
    alleles.contains row.alt = true ∧ row.ref ≠ row.alt ∧
    (cfg.reference = none → alleles.contains row.ref = true) ∧
    (∀ seq, refLookup cfg.reference row.chromosome = some seq →
      row.ref = get_ref_at_pos seq (row.pos - 1)) := by
  obtain ⟨c, hc, p, fi2, avail2, hrow⟩ := mem_vcfRowsFrom cfg g f fi0 row h
  subst hrow
  rw [row_ref, row_alt, row_chromosome, row_pos]
  refine ⟨get_ref_alt_alt_mem _ _ _ _, get_ref_alt_ne _ _ _ _, ?_, ?_⟩
  · intro hnone
    have hlk : refLookup cfg.reference c = none := by rw [hnone]; rfl
    rw [hlk, get_ref_alt_ref_none]
    refine getD_alleles_mem _ ?_
    have := pcg32randint_le f fi2 0 3 (by omega)
    omega
  · intro seq hseq
    rw [hseq]
    exact get_ref_alt_ref_some seq p f fi2

/-- C1, witness: the amended statement evaluated on a concrete
reference-free run. -/
theorem C1_witness :
    alleles.contains rowPlain.alt = true ∧ rowPlain.ref ≠ rowPlain.alt ∧
    (cfgPlain.reference = none → alleles.contains rowPlain.ref = true) ∧
    (∀ seq, refLookup cfgPlain.reference rowPlain.chromosome = some seq →
      rowPlain.ref = get_ref_at_pos seq (rowPlain.pos - 1)) :=
  C1_theorem cfgPlain zeroStream zeroStream 0 rowPlain (by decide)

/-- C4: ALT is computed from REF and a fresh draw k in the inclusive range
[1, 3]: when REF is canonical, ALT is the alphabet entry at index
(indexOf REF − k) mod 4 and differs from REF; when REF is not canonical, ALT
is the alphabet entry at index (refIndexDraw − k) mod 4, where refIndexDraw
is the REF-step draw in [0, 3]; ALT is canonical in both cases. -/
theorem C4_theorem (refSeq : Option RefSeq) (p : Nat) (f : RStream) (fi : Nat) :
    1 ≤ pcg32randint f (fi + 1) 1 3 ∧ pcg32randint f (fi + 1) 1 3 ≤ 3 ∧
    alleles.contains (get_ref_alt_at_position refSeq p f fi).1.2 = true ∧
    (alleles.contains (get_ref_alt_at_position refSeq p f fi).1.1 = true →
      (get_ref_alt_at_position refSeq p f fi).1.2 =
        alleles.getD ((alleles.indexOf (get_ref_alt_at_position refSeq p f fi).1.1 + 4 -
          pcg32randint f (fi + 1) 1 3) % 4) "" ∧
      (get_ref_alt_at_position refSeq p f fi).1.2 ≠
        (get_ref_alt_at_position refSeq p f fi).1.1) ∧
    (alleles.contains (get_ref_alt_at_position refSeq p f fi).1.1 = false →
      (get_ref_alt_at_position refSeq p f fi).1.2 =
        alleles.getD ((pcg32randint f fi 0 3 + 4 - pcg32randint f (fi + 1) 1 3) % 4) "") := by
  refine ⟨pcg32randint_ge f (fi + 1) 1 3, pcg32randint_le f (fi + 1) 1 3 (by omega),
    get_ref_alt_alt_mem refSeq p f fi, ?_, get_ref_alt_alt_noncanonical refSeq p f fi⟩
  intro hmem
  exact ⟨get_ref_alt_alt_canonical refSeq p f fi hmem,
    fun h => get_ref_alt_ne refSeq p f fi h.symm⟩

/-- C4, witness: the statement evaluated on a concrete reference-free draw. -/
theorem C4_witness :
    1 ≤ pcg32randint zeroStream (0 + 1) 1 3 ∧ pcg32randint zeroStream (0 + 1) 1 3 ≤ 3 ∧
    alleles.contains (get_ref_alt_at_position none 5 zeroStream 0).1.2 = true ∧
    (alleles.contains (get_ref_alt_at_position none 5 zeroStream 0).1.1 = true →
      (get_ref_alt_at_position none 5 zeroStream 0).1.2 =
        alleles.getD ((alleles.indexOf (get_ref_alt_at_position none 5 zeroStream 0).1.1 + 4 -
          pcg32randint zeroStream (0 + 1) 1 3) % 4) "" ∧
      (get_ref_alt_at_position none 5 zeroStream 0).1.2 ≠
        (get_ref_alt_at_position none 5 zeroStream 0).1.1) ∧
    (alleles.contains (get_ref_alt_at_position none 5 zeroStream 0).1.1 = false →
      (get_ref_alt_at_position none 5 zeroStream 0).1.2 =
        alleles.getD ((pcg32randint zeroStream 0 0 3 + 4 -
          pcg32randint zeroStream (0 + 1) 1 3) % 4) "") :=
  C4_theorem none 5 zeroStream 0

/-- C5: the multiset of genotype core patterns in every emitted row's sample
columns is a permutation of the core patterns of the working sequence fixed
at pass start; the per-row rotation only reorders it. -/
theorem C5_theorem (cfg : Config) (g f : RStream) (fi0 : Nat) (row : RowRecord)
    (h : row ∈ vcfRowsFrom cfg g f fi0) :
    List.Perm (row.samples.map corePattern) ((initialSamples cfg g).map corePattern) :=
  (vcfRows_samples_perm cfg g f fi0 row h).map corePattern

/-- C5, witness: the statement evaluated on a concrete run. -/
theorem C5_witness :
    List.Perm (rowPlain.samples.map corePattern)
      ((initialSamples cfgPlain zeroStream).map corePattern) :=
  C5_theorem cfgPlain zeroStream zeroStream 0 rowPlain (by decide)

/-! Properties of sampling without replacement. -/

theorem getD_mem_of_lt (l : List Nat) (i : Nat) (h : i < l.length) : l.getD i 0 ∈ l := by
  rw [List.getD_eq_getElem l 0 h]
  exact List.getElem_mem h

theorem getD_not_mem_eraseIdx :
    ∀ (l : List Nat) (i : Nat), l.Nodup → i < l.length → l.getD i 0 ∉ l.eraseIdx i
  | [], i, _, h => by simp at h
  | a :: t, 0, hnd, _ => by simpa using (List.nodup_cons.mp hnd).1
  | a :: t, i + 1, hnd, h => by
    have hlt : i < t.length := by simpa using h
    rw [List.getD_cons_succ, List.eraseIdx_cons_succ]
    intro hmem
    rcases List.mem_cons.mp hmem with h1 | h2
    · exact (List.nodup_cons.mp hnd).1 (h1 ▸ getD_mem_of_lt t i hlt)
    · exact getD_not_mem_eraseIdx t i (List.nodup_cons.mp hnd).2 hlt h2

theorem swr_length (g : RStream) :
    ∀ (k gi : Nat) (pool : List Nat), k ≤ pool.length →
      (sampleWithoutReplacement g gi k pool).1.length = k
  | 0, _, _, _ => rfl
  | k + 1, gi, pool, h => by
    have hp : ¬pool.length = 0 := by omega
    have hidx : g gi % pool.length < pool.length := Nat.mod_lt _ (by omega)
    have hlen2 : (pool.eraseIdx (g gi % pool.length)).length = pool.length - 1 :=
      List.length_eraseIdx_of_lt hidx
    simp only [sampleWithoutReplacement, if_neg hp, List.length_cons]
    have := swr_length g k (gi + 1) (pool.eraseIdx (g gi % pool.length)) (by omega)
    omega

theorem swr_subset (g : RStream) :
    ∀ (k gi : Nat) (pool : List Nat) (x : Nat),
      x ∈ (sampleWithoutReplacement g gi k pool).1 → x ∈ pool
  | 0, gi, pool, x, h => absurd h (by simp [sampleWithoutReplacement])
  | k + 1, gi, pool, x, h => by
    by_cases hp : pool.length = 0
    · rw [sampleWithoutReplacement, if_pos hp] at h
      exact absurd h (by simp)
    · simp only [sampleWithoutReplacement, if_neg hp, List.mem_cons] at h
      rcases h with h1 | h2
      · exact h1 ▸ getD_mem_of_lt pool _ (Nat.mod_lt _ (by omega))
      · exact (List.eraseIdx_sublist pool _).mem (swr_subset g k (gi + 1) _ x h2)

theorem swr_nodup (g : RStream) :
    ∀ (k gi : Nat) (pool : List Nat), pool.Nodup →
      (sampleWithoutReplacement g gi k pool).1.Nodup
  | 0, _, _, _ => by simp [sampleWithoutReplacement]
  | k + 1, gi, pool, hnd => by
    by_cases hp : pool.length = 0
    · simp [sampleWithoutReplacement, hp]
    · have hidx : g gi % pool.length < pool.length := Nat.mod_lt _ (by omega)
      simp only [sampleWithoutReplacement, if_neg hp, List.nodup_cons]
      refine ⟨fun hmem => ?_,
        swr_nodup g k (gi + 1) _ ((List.eraseIdx_sublist pool _).nodup hnd)⟩
      exact getD_not_mem_eraseIdx pool _ hnd hidx (swr_subset g k (gi + 1) _ _ hmem)

theorem rowsForPositions_map_pos (cfg : Config) (c : String) (refSeq : Option RefSeq)
    (f : RStream) :
    ∀ (ps : List Nat) (fi : Nat) (avail : List String),
      ((rowsForPositions cfg c refSeq f ps fi avail).1).map RowRecord.pos = ps
  | [], _, _ => rfl
  | p :: ps, fi, avail => by
    simp only [rowsForPositions, List.map_cons]
    rw [row_pos, rowsForPositions_map_pos cfg c refSeq f ps _ _]

/-- C2: per chromosome, the drawn position list has exactly `num_rows`
entries, is duplicate-free, is sorted strictly increasing, and lies inside
[1, length − 1]; the emitted rows carry exactly these positions in this
order (precondition: `num_rows ≤ length − 1`). -/
theorem C2_theorem (cfg : Config) (g f : RStream) (gi fi : Nat) (c : String)
    (refSeq : Option RefSeq) (avail : List String) (len : Nat)
    (h2 : cfg.num_rows ≤ len - 1) :
    ((rowsForPositions cfg c refSeq f (chromosomePositions cfg g gi len).1 fi avail).1).map
        RowRecord.pos = (chromosomePositions cfg g gi len).1 ∧
    (chromosomePositions cfg g gi len).1.length = cfg.num_rows ∧
    (chromosomePositions cfg g gi len).1.Nodup ∧
    List.Sorted (· < ·) (chromosomePositions cfg g gi len).1 ∧
    ∀ p ∈ (chromosomePositions cfg g gi len).1, 1 ≤ p ∧ p ≤ len - 1 := by
  have hlen : (sampleWithoutReplacement g gi cfg.num_rows (List.range' 1 (len - 1))).1.length =
      cfg.num_rows :=
    swr_length g cfg.num_rows gi _ (by simpa using h2)
  have hnd0 : (sampleWithoutReplacement g gi cfg.num_rows (List.range' 1 (len - 1))).1.Nodup :=
    swr_nodup g cfg.num_rows gi _ (List.nodup_range' 1 (len - 1))
  have hperm : ((chromosomePositions cfg g gi len).1).Perm
      (sampleWithoutReplacement g gi cfg.num_rows (List.range' 1 (len - 1))).1 :=
    List.perm_insertionSort (· ≤ ·) _
  have hnd : (chromosomePositions cfg g gi len).1.Nodup := hperm.nodup_iff.mpr hnd0
  have hsorted : List.Sorted (· ≤ ·) (chromosomePositions cfg g gi len).1 :=
    List.sorted_insertionSort (· ≤ ·) _
  refine ⟨rowsForPositions_map_pos cfg c refSeq f _ fi avail,
    hperm.length_eq.trans hlen, hnd, hsorted.lt_of_le hnd, ?_⟩
  intro p hp
  have hmem : p ∈ List.range' 1 (len - 1) :=
    swr_subset g cfg.num_rows gi _ p (hperm.mem_iff.mp hp)
  have := List.mem_range'_1.mp hmem
  omega

/-- C2, witness: the statement evaluated on a concrete chromosome pass with
`num_rows = 1` and synthetic length 200. -/
theorem C2_witness :
    ((rowsForPositions cfgPlain "chr1" none zeroStream
        (chromosomePositions cfgPlain zeroStream 0 200).1 0 []).1).map
        RowRecord.pos = (chromosomePositions cfgPlain zeroStream 0 200).1 ∧
    (chromosomePositions cfgPlain zeroStream 0 200).1.length = cfgPlain.num_rows ∧
    (chromosomePositions cfgPlain zeroStream 0 200).1.Nodup ∧
    List.Sorted (· < ·) (chromosomePositions cfgPlain zeroStream 0 200).1 ∧
    ∀ p ∈ (chromosomePositions cfgPlain zeroStream 0 200).1, 1 ≤ p ∧ p ≤ 200 - 1 :=
  C2_theorem cfgPlain zeroStream zeroStream 0 0 "chr1" none [] 200 (by decide)

set_option maxRecDepth 100000 in
/-- C3, counterexample to the claim as stated: with the `uuid` sample-ID
style, the header embeds tokens drawn from ambient process entropy, which is
not derived from the seed, so two independent runs with identical seed-derived
streams can produce different bytes. -/
theorem C3_counterexample :
    vcfFileContent cfgUuid zeroStream zeroStream uuidA ≠
      vcfFileContent cfgUuid zeroStream zeroStream uuidB := by decide

/-- C3 (amended): for the `count` and `padded_count` sample-ID styles, the
produced bytes are a function of the configuration and the two seed-derived
streams alone: the ambient uuid token stream does not influence them, so two
runs with the same seed and configuration are byte-identical. -/
theorem C3_theorem (cfg : Config) (g f : RStream) (u1 u2 : Nat → String) (fi0 : Nat)
    (h : cfg.id_type ≠ IdType.uuid) :
    vcfFileContentFrom cfg g f u1 fi0 = vcfFileContentFrom cfg g f u2 fi0 := by
  have hs : sample_name cfg u1 = sample_name cfg u2 := by
    funext i
    unfold sample_name
    cases hid : cfg.id_type with
    | count => rfl
    | padded_count => rfl
    | uuid => exact absurd hid h
  unfold vcfFileContentFrom vcfChunksFrom generate_vcf_header
  rw [hs]

/-- C3, witness: two runs of a concrete `count`-style configuration under
different ambient uuid streams produce the same bytes. -/
theorem C3_witness :
    vcfFileContentFrom cfgPlain zeroStream zeroStream uuidA 0 =
      vcfFileContentFrom cfgPlain zeroStream zeroStream uuidB 0 :=
  C3_theorem cfgPlain zeroStream zeroStream uuidA uuidB 0 (by decide)

/-! Properties of the non-trivial-callset mutation. -/

theorem weightedChoices_length (values : List String) (weights : List Nat) (g : RStream) :
    ∀ (gi k : Nat), (weightedChoices values weights g gi k).length = k
  | _, 0 => rfl
  | gi, k + 1 => by
    simp only [weightedChoices, List.length_cons,
      weightedChoices_length values weights g (gi + 1) k]

theorem generate_samples_fst_of_all (cfg : Config) (g : RStream) (gi : Nat) (s0 : String)
    (rest : List String) (hd : drawnSamples cfg g gi = s0 :: rest)
    (hall : (s0 :: rest).all
      (fun s => pyStartsWith s ((sample_values_full cfg g gi).getD 0 "")) = true) :
    (generate_samples cfg g gi).1 =
      (if cfg.phased then str_replace_first s0 "0" "1"
        else str_replace_first s0 "0/0" "0/1") :: rest := by
  simp only [generate_samples]
  rw [hd, if_pos hall]

theorem generate_samples_fst_of_not_all (cfg : Config) (g : RStream) (gi : Nat)
    (hall : ¬((drawnSamples cfg g gi).all
      (fun s => pyStartsWith s ((sample_values_full cfg g gi).getD 0 "")) = true)) :
    (generate_samples cfg g gi).1 = drawnSamples cfg g gi := by
  simp only [generate_samples]
  rw [if_neg hall]

theorem isPrefixOf_cons_destruct (a : Char) (pt st : List Char)
    (h : List.isPrefixOf (a :: pt) st = true) :
    ∃ t, st = a :: t ∧ List.isPrefixOf pt t = true := by
  cases st with
  | nil => simp [List.isPrefixOf] at h
  | cons b t =>
    simp only [List.isPrefixOf, Bool.and_eq_true, beq_iff_eq] at h
    exact ⟨t, by rw [h.1], h.2⟩

theorem replace_phased_head (s : String) (t : List Char) (h : s.data = '0' :: t) :
    (str_replace_first s "0" "1").data = '1' :: t := by
  have hpat : ("0" : String).data = ['0'] := rfl
  have hsub : ("1" : String).data = ['1'] := rfl
  unfold str_replace_first
  rw [h, hpat, hsub]
  show replaceFirstAux ['0'] ['1'] ('0' :: t) = '1' :: t
  rw [replaceFirstAux]
  simp [List.isPrefixOf]

theorem replace_unphased_head (s : String) (t : List Char)
    (h : s.data = '0' :: '/' :: '0' :: t) :
    (str_replace_first s "0/0" "0/1").data = '0' :: '/' :: '1' :: t := by
  have hpat : ("0/0" : String).data = ['0', '/', '0'] := rfl
  have hsub : ("0/1" : String).data = ['0', '/', '1'] := rfl
  unfold str_replace_first
  rw [h, hpat, hsub]
  show replaceFirstAux ['0', '/', '0'] ['0', '/', '1'] ('0' :: '/' :: '0' :: t) =
    '0' :: '/' :: '1' :: t
  rw [replaceFirstAux]
  simp [List.isPrefixOf]

theorem pyStartsWith_false_first (s p : String) (a b : Char) (ts tp : List Char)
    (hs : s.data = a :: ts) (hp2 : p.data = b :: tp) (hne : b ≠ a) :
    pyStartsWith s p = false := by
  unfold pyStartsWith
  rw [hs, hp2]
  simp [List.isPrefixOf, hne]

theorem pyStartsWith_false_third (s p : String) (a1 a2 x y : Char) (ts tp : List Char)
    (hs : s.data = a1 :: a2 :: x :: ts) (hp2 : p.data = a1 :: a2 :: y :: tp)
    (hne : y ≠ x) :
    pyStartsWith s p = false := by
  unfold pyStartsWith
  rw [hs, hp2]
  simp [List.isPrefixOf, hne]

theorem v0_shape_phased (cfg : Config) (g : RStream) (gi : Nat) (hp : cfg.phased = true) :
    ∃ tl, ((sample_values_full cfg g gi).getD 0 "").data = '0' :: '|' :: '0' :: tl := by
  cases hl : cfg.large_format with
  | true =>
    refine ⟨':' :: (pyChoice extra_data (g gi)).data, ?_⟩
    simp only [sample_values_full, base_sample_values, hp, hl, if_true, attachExtra]
    rfl
  | false =>
    refine ⟨[], ?_⟩
    simp only [sample_values_full, base_sample_values, hp, hl, if_true, if_false]
    rfl

theorem v0_shape_unphased (cfg : Config) (g : RStream) (gi : Nat) (hp : cfg.phased = false) :
    ∃ tl, ((sample_values_full cfg g gi).getD 0 "").data = '0' :: '/' :: '0' :: tl := by
  cases hl : cfg.large_format with
  | true =>
    refine ⟨':' :: (pyChoice extra_data (g gi)).data, ?_⟩
    simp only [sample_values_full, base_sample_values, hp, hl, if_true, if_false, attachExtra]
    rfl
  | false =>
    refine ⟨[], ?_⟩
    simp only [sample_values_full, base_sample_values, hp, hl, if_true, if_false]
    rfl

/-- The working sequence as iteration begins always contains an element that
does not start with the homozygous-reference value. -/
theorem initialSamples_exists_nonref (cfg : Config) (g : RStream)
    (h1 : 1 ≤ cfg.num_samples) :
    ∃ s ∈ initialSamples cfg g,
      pyStartsWith s ((sample_values_full cfg g 0).getD 0 "") = false := by
  by_cases hall : (drawnSamples cfg g 0).all
      (fun s => pyStartsWith s ((sample_values_full cfg g 0).getD 0 "")) = true
  · have hlen : (drawnSamples cfg g 0).length = cfg.num_samples :=
      weightedChoices_length _ _ g _ _
    obtain ⟨s0, rest, hcons⟩ : ∃ a l, drawnSamples cfg g 0 = a :: l := by
      cases hd : drawnSamples cfg g 0 with
      | nil => rw [hd] at hlen; simp at hlen; omega
      | cons a l => exact ⟨a, l, rfl⟩
    have hs0 : pyStartsWith s0 ((sample_values_full cfg g 0).getD 0 "") = true :=
      List.all_eq_true.mp (hcons ▸ hall) s0 (List.mem_cons_self s0 rest)
    have hinit := generate_samples_fst_of_all cfg g 0 s0 rest hcons (hcons ▸ hall)
    show ∃ s ∈ (generate_samples cfg g 0).1, _
    rw [hinit]
    cases hph : cfg.phased with
    | true =>
      obtain ⟨tl, hv0⟩ := v0_shape_phased cfg g 0 hph
      obtain ⟨t, hs0d, _⟩ := isPrefixOf_cons_destruct '0' ('|' :: '0' :: tl) s0.data
        (by unfold pyStartsWith at hs0; rw [hv0] at hs0; exact hs0)
      rw [if_pos rfl]
      refine ⟨str_replace_first s0 "0" "1", List.mem_cons_self _ _, ?_⟩
      exact pyStartsWith_false_first _ _ '1' '0' t _ (replace_phased_head s0 t hs0d) hv0
        (by decide)
    | false =>
      obtain ⟨tl, hv0⟩ := v0_shape_unphased cfg g 0 hph
      have hpre : List.isPrefixOf ('0' :: '/' :: '0' :: tl) s0.data = true := by
        unfold pyStartsWith at hs0; rw [hv0] at hs0; exact hs0
      obtain ⟨t1, hs1, hpre1⟩ := isPrefixOf_cons_destruct '0' ('/' :: '0' :: tl) s0.data hpre
      obtain ⟨t2, hs2, hpre2⟩ := isPrefixOf_cons_destruct '/' ('0' :: tl) t1 hpre1
      obtain ⟨t3, hs3, _⟩ := isPrefixOf_cons_destruct '0' tl t2 hpre2
      have hs0d : s0.data = '0' :: '/' :: '0' :: t3 := by rw [hs1, hs2, hs3]
      rw [if_neg (by decide)]
      refine ⟨str_replace_first s0 "0/0" "0/1", List.mem_cons_self _ _, ?_⟩
      exact pyStartsWith_false_third _ _ '0' '/' '1' '0' t3 _
        (replace_unphased_head s0 t3 hs0d) hv0 (by decide)
  · have hinit := generate_samples_fst_of_not_all cfg g 0 hall
    show ∃ s ∈ (generate_samples cfg g 0).1, _
    rw [hinit]
    obtain ⟨s, hmem, hfalse⟩ : ∃ s ∈ drawnSamples cfg g 0,
        ¬(pyStartsWith s ((sample_values_full cfg g 0).getD 0 "") = true) := by
      simpa [List.all_eq_true] using hall
    exact ⟨s, hmem, by simpa using hfalse⟩

/-- C6 (amended): the working sequence never consists entirely of values
starting with the homozygous-reference value — when every drawn value does,
the first element is mutated (phased: its first zero becomes a one, giving
core pattern 1|0; unphased: its leading 0/0 becomes 0/1, which mutates the
second zero) — so every emitted row has at least one non-reference sample
column. -/
theorem C6_theorem (cfg : Config) (g f : RStream) (fi0 : Nat)
    (h1 : 1 ≤ cfg.num_samples) (row : RowRecord) (h : row ∈ vcfRowsFrom cfg g f fi0) :
    ∃ s ∈ row.samples,
      pyStartsWith s ((sample_values_full cfg g 0).getD 0 "") = false := by
  obtain ⟨s, hsmem, hsfalse⟩ := initialSamples_exists_nonref cfg g h1
  exact ⟨s, (vcfRows_samples_perm cfg g f fi0 row h).mem_iff.mpr hsmem, hsfalse⟩

/-- C6, counterexample to the claim's mutation rule as stated: in the
unphased all-homozygous case the code produces `"0/1"` (second zero mutated),
while mutating the first element's first zero would produce `"1/0"`. -/
theorem C6_counterexample :
    (initialSamples cfgUnphased zeroStream).getD 0 "" = "0/1" ∧
    str_replace_first "0/0" "0" "1" = "1/0" ∧ ("0/1" : String) ≠ "1/0" := by decide

/-- C6, witness: the amended statement evaluated on a concrete unphased run. -/
theorem C6_witness :
    ∃ s ∈ rowUnphased.samples,
      pyStartsWith s ((sample_values_full cfgUnphased zeroStream 0).getD 0 "") = false :=
  C6_theorem cfgUnphased zeroStream zeroStream 0 (by decide) rowUnphased (by decide)

/-- The rotated ring buffer: entry `i` of the result is the entry of the
original at index `i + length − (r mod length)`, modulo the length — a
rotation to the right by `r`. -/
theorem deque_rotate_getD (l : List String) (r i : Nat) (hi : i < l.length) :
    (deque_rotate l r).getD i "" =
      l.getD ((i + (l.length - r % l.length)) % l.length) "" := by
  have hlen : ¬l.length = 0 := by omega
  unfold deque_rotate
  rw [if_neg hlen]
  have hi2 : i < (l.rotate (l.length - r % l.length)).length := by
    rw [List.length_rotate]
    exact hi
  have hmod : (i + (l.length - r % l.length)) % l.length < l.length :=
    Nat.mod_lt _ (by omega)
  rw [List.getD_eq_getElem _ _ hi2, List.getD_eq_getElem _ _ hmod, List.getElem_rotate]

/-- C7, counterexample to the claim as stated: with 10 samples the rotation
amount is forced to 1, yet the emitted sample columns are not the left
rotation by 1 (`List.rotate` rotates left) of the working sequence — the
code's `deque.rotate(1)` rotates right, moving the last element to the
front. -/
theorem C7_counterexample :
    (vcfRows cfgTen zeroStream zeroStream).map RowRecord.samples =
      [["0|0", "1|0", "0|0", "0|0", "0|0", "0|0", "0|0", "0|0", "0|0", "0|0"]] ∧
    Config.max_rotation cfgTen = 1 ∧
    (initialSamples cfgTen zeroStream).rotate 1 =
      ["0|0", "0|0", "0|0", "0|0", "0|0", "0|0", "0|0", "0|0", "0|0", "1|0"] ∧
    (["0|0", "1|0", "0|0", "0|0", "0|0", "0|0", "0|0", "0|0", "0|0", "0|0"] : List String) ≠
      ["0|0", "0|0", "0|0", "0|0", "0|0", "0|0", "0|0", "0|0", "0|0", "1|0"] := by decide

/-- C7 (amended): each row's sample columns are the working sequence rotated
as a ring buffer to the RIGHT by a pseudorandom amount in [1, maxRotation],
with `maxRotation = num_samples / 10` when `num_samples ≥ 10` and
`num_samples` otherwise; the rotated order joined with tab separators is
embedded in the emitted row line. -/
theorem C7_theorem (cfg : Config) (c : String) (p : Nat) (refSeq : Option RefSeq)
    (f : RStream) (fi : Nat) (avail : List String) (h1 : 1 ≤ cfg.max_rotation) :
    1 ≤ pcg32randint f (fi + 3) 1 cfg.max_rotation ∧
    pcg32randint f (fi + 3) 1 cfg.max_rotation ≤ cfg.max_rotation ∧
    cfg.max_rotation =
      (if 10 ≤ cfg.num_samples then cfg.num_samples / 10 else cfg.num_samples) ∧
    (generate_vcf_row cfg c p refSeq f fi avail).1.samples =
      deque_rotate avail (pcg32randint f (fi + 3) 1 cfg.max_rotation) ∧
    (∀ i, i < avail.length →
      ((generate_vcf_row cfg c p refSeq f fi avail).1.samples).getD i "" =
        avail.getD ((i + (avail.length -
          pcg32randint f (fi + 3) 1 cfg.max_rotation % avail.length)) % avail.length) "") ∧
    (generate_vcf_row cfg c p refSeq f fi avail).1.line =
      c ++ "\t" ++ toString p ++ "\t.\t" ++
        (generate_vcf_row cfg c p refSeq f fi avail).1.ref ++ "\t" ++
        (generate_vcf_row cfg c p refSeq f fi avail).1.alt ++ "\t" ++
        toString (generate_vcf_row cfg c p refSeq f fi avail).1.qual ++ "\tPASS\t" ++
        Config.infoStr cfg ++ "\t" ++ Config.fmt cfg ++ "\t" ++
        String.intercalate "\t"
          ((generate_vcf_row cfg c p refSeq f fi avail).1.samples) ++ "\n" := by
  refine ⟨pcg32randint_ge f (fi + 3) 1 cfg.max_rotation,
    pcg32randint_le f (fi + 3) 1 cfg.max_rotation h1, rfl,
    row_samples cfg c p refSeq f fi avail, ?_,
    row_line cfg c p refSeq f fi avail⟩
  intro i hi
  rw [row_samples]
  exact deque_rotate_getD avail _ i hi

/-- C7, witness: the amended statement evaluated on one concrete row. -/
theorem C7_witness :
    1 ≤ pcg32randint zeroStream (0 + 3) 1 cfgTen.max_rotation ∧
    pcg32randint zeroStream (0 + 3) 1 cfgTen.max_rotation ≤ cfgTen.max_rotation ∧
    cfgTen.max_rotation =
      (if 10 ≤ cfgTen.num_samples then cfgTen.num_samples / 10 else cfgTen.num_samples) ∧
    (generate_vcf_row cfgTen "chr1" 7 none zeroStream 0
        (initialSamples cfgTen zeroStream)).1.samples =
      deque_rotate (initialSamples cfgTen zeroStream)
        (pcg32randint zeroStream (0 + 3) 1 cfgTen.max_rotation) ∧
    (∀ i, i < (initialSamples cfgTen zeroStream).length →
      ((generate_vcf_row cfgTen "chr1" 7 none zeroStream 0
          (initialSamples cfgTen zeroStream)).1.samples).getD i "" =
        (initialSamples cfgTen zeroStream).getD
          ((i + ((initialSamples cfgTen zeroStream).length -
            pcg32randint zeroStream (0 + 3) 1 cfgTen.max_rotation %
              (initialSamples cfgTen zeroStream).length)) %
            (initialSamples cfgTen zeroStream).length) "") ∧
    (generate_vcf_row cfgTen "chr1" 7 none zeroStream 0
        (initialSamples cfgTen zeroStream)).1.line =
      "chr1" ++ "\t" ++ toString 7 ++ "\t.\t" ++
        (generate_vcf_row cfgTen "chr1" 7 none zeroStream 0
          (initialSamples cfgTen zeroStream)).1.ref ++ "\t" ++
        (generate_vcf_row cfgTen "chr1" 7 none zeroStream 0
          (initialSamples cfgTen zeroStream)).1.alt ++ "\t" ++
        toString (generate_vcf_row cfgTen "chr1" 7 none zeroStream 0
          (initialSamples cfgTen zeroStream)).1.qual ++ "\tPASS\t" ++
        Config.infoStr cfgTen ++ "\t" ++ Config.fmt cfgTen ++ "\t" ++
        String.intercalate "\t"
          ((generate_vcf_row cfgTen "chr1" 7 none zeroStream 0
            (initialSamples cfgTen zeroStream)).1.samples) ++ "\n" :=
  C7_theorem cfgTen "chr1" 7 none zeroStream 0 (initialSamples cfgTen zeroStream)
    (by decide)

set_option maxRecDepth 100000 in
/-- C8, counterexample to the claim as stated: in a batch over a
reference-bound configuration, a task that runs second on the same worker
starts with the fast counter-based stream already advanced by one whole pass
(that state is a per-process module global, not part of the per-task copy of
the generator), and its file's bytes differ from the first task's. -/
theorem C8_counterexample :
    batchTaskContent cfgRefACGT zeroStream idStream emptyUuid assignSame 0 ≠
      batchTaskContent cfgRefACGT zeroStream idStream emptyUuid assignSame 1 := by decide

/-- C8 (amended): when the worker assignment gives every worker at most one
task, every task starts from the same pre-generation state at fast-stream
offset zero, and all produced files are byte-identical. -/
theorem C8_theorem (cfg : Config) (g f : RStream) (u : Nat → String)
    (assign : Nat → Nat) (n : Nat)
    (hinj : ∀ s t, s < n → t < n → assign s = assign t → s = t)
    (s t : Nat) (hs : s < n) (ht : t < n) :
    batchTaskContent cfg g f u assign s = batchTaskContent cfg g f u assign t := by
  have hz : ∀ x, x < n → tasksBefore assign x = 0 := by
    intro x hx
    unfold tasksBefore
    rw [List.length_eq_zero, List.filter_eq_nil_iff]
    intro y hy hbeq
    have hyx : y = x := hinj y x (by simp only [List.mem_range] at hy; omega) hx
      (by simpa using hbeq)
    simp only [List.mem_range] at hy
    omega
  unfold batchTaskContent
  rw [hz s hs, hz t ht]

/-- C8, witness: two tasks on distinct workers produce identical bytes. -/
theorem C8_witness :
    batchTaskContent cfgRefACGT zeroStream idStream emptyUuid (fun t => t) 0 =
      batchTaskContent cfgRefACGT zeroStream idStream emptyUuid (fun t => t) 1 :=
  C8_theorem cfgRefACGT zeroStream idStream emptyUuid (fun t => t) 2
    (fun _ _ _ _ h => h) 0 1 (by omega) (by omega)

/-- C9: in one full reference-bound pass, chromosome chr1's reference handle
is opened twice (once while the header's contig line reads its length — that
handle is never closed — and once for row emission) but closed only once, so
it is not acquired and released exactly once per pass. -/
theorem C9_theorem :
    countOpens (passEvents cfgRefACGT) "chr1" = 2 ∧
    countCloses (passEvents cfgRefACGT) "chr1" = 1 := by decide

/-! Specialization of the sampler for phased configurations with fewer than
300 samples, where every non-reference weight floors to zero. -/

theorem weights_phased_small (s : Nat) (h2 : s < 300) :
    sample_value_weights true s = [s * 10, 0, 0, 0] := by
  have e1 : s / 500 = 0 := Nat.div_eq_of_lt (by omega)
  have e2 : s / 300 = 0 := Nat.div_eq_of_lt (by omega)
  simp [sample_value_weights, e1, e2]

theorem weightedChoice_head_pos (values : List String) (w0 : Nat) (n : Nat)
    (h0 : 0 < w0) (hv : values ≠ []) :
    weightedChoice values [w0, 0, 0, 0] n = values.getD 0 "" := by
  cases values with
  | nil => exact absurd rfl hv
  | cons a rest =>
    have hsum : (List.sum [w0, 0, 0, 0]) = w0 := by simp
    unfold weightedChoice
    rw [hsum, if_neg (by omega), List.zip_cons_cons, weightedPickAux,
      if_pos (Nat.mod_lt _ h0)]
    rfl

theorem weightedChoices_const (values : List String) (w0 : Nat) (g : RStream)
    (h0 : 0 < w0) (hv : values ≠ []) :
    ∀ (gi k : Nat), weightedChoices values [w0, 0, 0, 0] g gi k =
      List.replicate k (values.getD 0 "")
  | _, 0 => rfl
  | gi, k + 1 => by
    rw [weightedChoices, List.replicate_succ,
      weightedChoice_head_pos values w0 (g gi) h0 hv,
      weightedChoices_const values w0 g h0 hv (gi + 1) k]

theorem sample_values_full_ne_nil (cfg : Config) (g : RStream) (gi : Nat)
    (hp : cfg.phased = true) :
    sample_values_full cfg g gi ≠ [] := by
  intro h
  obtain ⟨tl, htl⟩ := v0_shape_phased cfg g gi hp
  rw [h] at htl
  simp at htl

theorem pyStartsWith_refl (s : String) : pyStartsWith s s = true := by
  unfold pyStartsWith
  simp

theorem drawnSamples_replicate (cfg : Config) (g : RStream) (hp : cfg.phased = true)
    (h1 : 1 ≤ cfg.num_samples) (h2 : cfg.num_samples < 300) :
    drawnSamples cfg g 0 =
      List.replicate cfg.num_samples ((sample_values_full cfg g 0).getD 0 "") := by
  unfold drawnSamples
  rw [hp, weights_phased_small cfg.num_samples h2]
  exact weightedChoices_const _ _ g (by omega) (sample_values_full_ne_nil cfg g 0 hp) _ _

/-- For a phased configuration with fewer than 300 samples, the initial draw
is all homozygous-reference, the forced mutation applies, and the working
sequence is the mutated first value followed by `num_samples − 1` copies of
the homozygous-reference value. -/
theorem initialSamples_phased_small (cfg : Config) (g : RStream)
    (hp : cfg.phased = true) (h1 : 1 ≤ cfg.num_samples) (h2 : cfg.num_samples < 300) :
    initialSamples cfg g =
      str_replace_first ((sample_values_full cfg g 0).getD 0 "") "0" "1" ::
        List.replicate (cfg.num_samples - 1) ((sample_values_full cfg g 0).getD 0 "") := by
  obtain ⟨m, hm⟩ : ∃ m, cfg.num_samples = m + 1 := ⟨cfg.num_samples - 1, by omega⟩
  have hrep := drawnSamples_replicate cfg g hp h1 h2
  rw [hm, List.replicate_succ] at hrep
  have hall : (((sample_values_full cfg g 0).getD 0 "") ::
      List.replicate m ((sample_values_full cfg g 0).getD 0 "")).all
      (fun s => pyStartsWith s ((sample_values_full cfg g 0).getD 0 "")) = true := by
    rw [List.all_eq_true]
    intro x hx
    have hxeq : x = (sample_values_full cfg g 0).getD 0 "" := by
      rcases List.mem_cons.mp hx with h | h
      · exact h
      · exact (List.eq_of_mem_replicate h)
    rw [hxeq]
    exact pyStartsWith_refl _
  have hfst := generate_samples_fst_of_all cfg g 0 _ _ hrep hall
  rw [hp, if_pos rfl] at hfst
  show (generate_samples cfg g 0).1 = _
  rw [hfst, hm]
  rfl

theorem corePattern_v0_phased (cfg : Config) (g : RStream) (gi : Nat)
    (hp : cfg.phased = true) :
    corePattern ((sample_values_full cfg g gi).getD 0 "") = "0|0" := by
  cases hl : cfg.large_format with
  | true =>
    have hdata : ((sample_values_full cfg g gi).getD 0 "").data =
        '0' :: '|' :: '0' :: ':' :: (pyChoice extra_data (g gi)).data := by
      simp only [sample_values_full, base_sample_values, hp, hl, if_true, attachExtra]
      rfl
    unfold corePattern
    rw [hdata]
    simp [List.takeWhile]
  | false =>
    have hv : (sample_values_full cfg g gi).getD 0 "" = "0|0" := by
      simp only [sample_values_full, base_sample_values, hp, hl, if_true, if_false]
      rfl
    rw [hv]
    decide

theorem corePattern_mutated_phased (cfg : Config) (g : RStream) (gi : Nat)
    (hp : cfg.phased = true) :
    corePattern (str_replace_first ((sample_values_full cfg g gi).getD 0 "") "0" "1") =
      "1|0" := by
  obtain ⟨tl, htl⟩ := v0_shape_phased cfg g gi hp
  have hmut := replace_phased_head _ ('|' :: '0' :: tl) htl
  cases hl : cfg.large_format with
  | true =>
    have hdata : ((sample_values_full cfg g gi).getD 0 "").data =
        '0' :: '|' :: '0' :: ':' :: (pyChoice extra_data (g gi)).data := by
      simp only [sample_values_full, base_sample_values, hp, hl, if_true, attachExtra]
      rfl
    have htl2 : tl = ':' :: (pyChoice extra_data (g gi)).data := by
      have := htl.symm.trans hdata
      simpa using this
    unfold corePattern
    rw [hmut, htl2]
    simp [List.takeWhile]
  | false =>
    have hv : (sample_values_full cfg g gi).getD 0 "" = "0|0" := by
      simp only [sample_values_full, base_sample_values, hp, hl, if_true, if_false]
      rfl
    rw [hv]
    decide

/-- The core patterns of the working sequence for a phased configuration with
fewer than 300 samples: one `1|0` and `num_samples − 1` copies of `0|0`. -/
theorem initial_cores_phased_small (cfg : Config) (g : RStream)
    (hp : cfg.phased = true) (h1 : 1 ≤ cfg.num_samples) (h2 : cfg.num_samples < 300) :
    (initialSamples cfg g).map corePattern =
      "1|0" :: List.replicate (cfg.num_samples - 1) "0|0" := by
  rw [initialSamples_phased_small cfg g hp h1 h2, List.map_cons, List.map_replicate,
    corePattern_mutated_phased cfg g 0 hp, corePattern_v0_phased cfg g 0 hp]

/-- C10: in every phased configuration with `1 ≤ num_samples < 300`, all
non-reference weights floor to zero, the initial draw is all
homozygous-reference, the forced mutation applies, and every emitted row's
sample columns carry exactly one `1|0` core pattern and `num_samples − 1`
`0|0` core patterns. -/
theorem C10_theorem (cfg : Config) (g f : RStream) (fi0 : Nat)
    (hp : cfg.phased = true) (h1 : 1 ≤ cfg.num_samples) (h2 : cfg.num_samples < 300)
    (row : RowRecord) (h : row ∈ vcfRowsFrom cfg g f fi0) :
    (row.samples.map corePattern).count "1|0" = 1 ∧
    (row.samples.map corePattern).count "0|0" = cfg.num_samples - 1 ∧
    row.samples.length = cfg.num_samples := by
  have hperm : ((row.samples.map corePattern)).Perm
      ((initialSamples cfg g).map corePattern) :=
    (vcfRows_samples_perm cfg g f fi0 row h).map corePattern
  have hcores := initial_cores_phased_small cfg g hp h1 h2
  rw [hcores] at hperm
  refine ⟨?_, ?_, ?_⟩
  · rw [hperm.count_eq, List.count_cons, List.count_replicate]
    simp
  · rw [hperm.count_eq, List.count_cons, List.count_replicate]
    simp
  · have hlen : (row.samples.map corePattern).length =
        ("1|0" :: List.replicate (cfg.num_samples - 1) "0|0").length := hperm.length_eq
    simp only [List.length_map, List.length_cons, List.length_replicate] at hlen
    omega

/-- C10, witness: the statement evaluated on a concrete phased 2-sample run. -/
theorem C10_witness :
    (rowPlain.samples.map corePattern).count "1|0" = 1 ∧
    (rowPlain.samples.map corePattern).count "0|0" = cfgPlain.num_samples - 1 ∧
    rowPlain.samples.length = cfgPlain.num_samples :=
  C10_theorem cfgPlain zeroStream zeroStream 0 (by decide) (by decide) (by decide)
    rowPlain (by decide)

end SyntheticVCF
